import Mathlib

/-!
Verification development for the release-tracker core of this repository
(`src/release_tracker/release_tracker.py`).  Python values are embedded
shallowly: strings are `String`, lists are `List`, Python `dict`s are
insertion-ordered association lists, Python `set`s are duplicate-free lists
used only through membership, and a raised Python exception is an
`Except.error` carrying the exception's kind.  File-system contents
(release logs, docker manifests) are part of an explicit `TrackerState`.
-/

set_option autoImplicit false

/-- Kinds of Python exceptions the embedded code can raise.  `nothingChanged`
is the `RuntimeError("nothing changed")` of `ReleaseTracker.delete`. -/
inductive PyErr where
  | typeError
  | valueError
  | attributeError
  | keyError
  | ioError
  | indexError
  | nameError
  | nothingChanged
deriving DecidableEq, Repr

/-- The `PrunePolicy` enum (release_tracker.py lines 33-35). -/
inductive PrunePolicy where
  | LATEST
  | UNIQUE
deriving DecidableEq, Repr

/-- Lowercase member name, as produced by `t.prune_policy.name.lower()`. -/
def PrunePolicy.lowerName : PrunePolicy → String
  | .LATEST => "latest"
  | .UNIQUE => "unique"

/-- The `ReleaseTrack` named tuple (lines 38-41).  `prune_max_age` is an
`int` in the source (an age in days). -/
structure ReleaseTrack where
  name : String
  prune_policy : PrunePolicy
  prune_max_age : Int
deriving DecidableEq, Repr

/-- One release-log entry, as persisted in `release-log.json` (lines
397-402): a dict `{created_at, files, version}` with `created_at` a string
in the fixed `%Y-%m-%dT%H:%M:%SZ` format, `files` a list of paths relative
to the track directory, and `version` the raw version label. -/
structure ReleaseEntry where
  created_at : String
  files : List String
  version : String
deriving DecidableEq, Repr

/-- The tracker's state, i.e. the parts of the store the embedded methods
read and write.  `tracks` is the in-memory registry with the type annotated
on the class (`self.tracks: dict[str, ReleaseTrack]`, line 301); the defect
by which `load_tracks` actually builds set-valued entries is modelled at
`load_tracks` itself.  `releaseLogs` maps a track name to the contents of
its `release-log.json` (an absent key models a missing file).
`dockerLayers` maps a `(track, version_id)` pair to the key set of the
`layers` dict of `<track>/<version_id>/docker-manifests.json` (an absent
key models a missing manifest file; present files are well formed). -/
structure TrackerState where
  tracks : List (String × ReleaseTrack)
  releaseLogs : List (String × List ReleaseEntry)
  dockerLayers : List (String × String × List String)

/-! ### Python string primitives used by the source -/

/-- Python whitespace characters (`str.strip` default, ASCII range). -/
def isPyWs (c : Char) : Bool :=
  c == ' ' || c == '\t' || c == '\n' || c == '\r' || c.toNat == 11 || c.toNat == 12

/-- Removal of leading whitespace characters. -/
def dropWs : List Char → List Char
  | [] => []
  | c :: rest => if isPyWs c then dropWs rest else c :: rest

/-- Python's `s.strip()`: remove leading and trailing whitespace. -/
def pyStrip (s : String) : String :=
  String.mk ((dropWs ((dropWs s.data).reverse)).reverse)

/-- `ReleaseTracker.version_id` (lines 287-289):
`f"{created_at.strip()}__{version.strip()}"`. -/
def version_id (created_at version : String) : String :=
  pyStrip created_at ++ "__" ++ pyStrip version

/-- Boolean test that `p` is a prefix of `l` (character lists). -/
def isPrefixChars : List Char → List Char → Bool
  | [], _ => true
  | _ :: _, [] => false
  | a :: as, b :: bs => a == b && isPrefixChars as bs

/-- Boolean substring containment on character lists. -/
def containsChars (needle : List Char) : List Char → Bool
  | [] => isPrefixChars needle []
  | c :: t => isPrefixChars needle (c :: t) || containsChars needle t

/-- Python's `needle in hay` on strings: substring containment. -/
def pyIn (needle hay : String) : Bool :=
  containsChars needle.data hay.data

/-- Python's `s.endswith(post)`. -/
def pyEndsWith (s post : String) : Bool :=
  isPrefixChars post.data.reverse s.data.reverse

/-- Python's `s.split("__")`: split on every non-overlapping occurrence of
the two-character separator, scanning left to right; `"".split("__")` is
`[""]`. -/
def splitDunder : List Char → List (List Char)
  | [] => [[]]
  | '_' :: '_' :: rest => [] :: splitDunder rest
  | c :: rest =>
    match splitDunder rest with
    | [] => [[c]]
    | h :: t => (c :: h) :: t

/-- String-level wrapper for `splitDunder`. -/
def splitDunderStr (s : String) : List String :=
  (splitDunder s.data).map (fun l => String.mk l)

/-- Python's `s[:s.index("__")]`: the part of `s` before the first
occurrence of `"__"`, or `none` when `"__"` does not occur (in which case
`str.index` raises `ValueError`). -/
def beforeDunder : List Char → Option (List Char)
  | [] => none
  | '_' :: '_' :: _ => some []
  | c :: rest => (beforeDunder rest).map (fun l => c :: l)

/-- Code-point lexicographic comparison of character lists, as Python's
string `<`/`sorted` use. -/
def charsLe : List Char → List Char → Bool
  | [], _ => true
  | _ :: _, [] => false
  | a :: as, b :: bs =>
    if a.toNat < b.toNat then true
    else if b.toNat < a.toNat then false
    else charsLe as bs

/-- Python string `≤` (code-point lexicographic order). -/
def strLe (a b : String) : Bool := charsLe a.data b.data

/-! ### The fixed timestamp format

`ReleaseTracker.DateFormat` is `"%Y-%m-%dT%H:%M:%SZ"` (line 47); the code
parses such strings with `datetime.strptime` and compares the resulting
naive datetimes.  A parsed datetime is modelled by its six fields, and
datetime subtraction by the difference of total second counts. -/

/-- A parsed `datetime.datetime` value (naive, second precision). -/
structure PyDateTime where
  year : Nat
  month : Nat
  day : Nat
  hour : Nat
  minute : Nat
  second : Nat
deriving DecidableEq, Repr

/-- Gregorian leap-year test. -/
def isLeapYear (y : Nat) : Bool :=
  (y % 4 == 0 && y % 100 != 0) || y % 400 == 0

/-- Length of month `m` of year `y`. -/
def monthDays (y m : Nat) : Nat :=
  if m == 2 then (if isLeapYear y then 29 else 28)
  else if m == 4 || m == 6 || m == 9 || m == 11 then 30
  else 31

/-- Days in year `y` before the first day of month `m`. -/
def daysBeforeMonth (y m : Nat) : Nat :=
  (List.range (m - 1)).foldl (fun a i => a + monthDays y (i + 1)) 0

/-- Proleptic-Gregorian ordinal day number (0001-01-01 is day 1), as
`datetime.toordinal` computes it. -/
def toOrdinal (d : PyDateTime) : Nat :=
  (d.year - 1) * 365 + ((d.year - 1) / 4 - (d.year - 1) / 100 + (d.year - 1) / 400)
    + daysBeforeMonth d.year d.month + d.day

/-- Total seconds of a datetime from the epoch of the ordinal count;
differences of these are exactly Python's `datetime` subtraction in
seconds. -/
def pySeconds (d : PyDateTime) : Nat :=
  toOrdinal d * 86400 + d.hour * 3600 + d.minute * 60 + d.second

/-- Numeric value of a decimal digit character. -/
def digitVal (c : Char) : Option Nat :=
  if c.isDigit then some (c.toNat - 48) else none

/-- Two decimal digits. -/
def num2 (a b : Char) : Option Nat := do
  let x ← digitVal a
  let y ← digitVal b
  pure (x * 10 + y)

/-- Four decimal digits. -/
def num4 (a b c d : Char) : Option Nat := do
  let x ← num2 a b
  let y ← num2 c d
  pure (x * 100 + y)

/-- `datetime.strptime(s, "%Y-%m-%dT%H:%M:%SZ")`, modelled on the canonical
zero-padded form of the fixed format (CPython's `strptime` additionally
tolerates non-padded fields, which no caller of this code produces).
`none` models the `ValueError` raised on failure; field ranges are
validated as the `datetime` constructor does. -/
def strptimeFixed (s : String) : Option PyDateTime :=
  match s.data with
  | [y1, y2, y3, y4, '-', o1, o2, '-', d1, d2, 'T',
     h1, h2, ':', i1, i2, ':', e1, e2, 'Z'] => do
    let y ← num4 y1 y2 y3 y4
    let mo ← num2 o1 o2
    let dy ← num2 d1 d2
    let h ← num2 h1 h2
    let mi ← num2 i1 i2
    let se ← num2 e1 e2
    if 1 ≤ y && 1 ≤ mo && mo ≤ 12 && 1 ≤ dy && dy ≤ monthDays y mo
        && h ≤ 23 && mi ≤ 59 && se ≤ 59 then
      some ⟨y, mo, dy, h, mi, se⟩
    else none
  | _ => none

/-- The datetime encoded in a version identifier, as
`datetime.strptime(version_id[:version_id.index("__")], DateFormat)`
obtains it (line 481); `none` models the exceptions of `index`/`strptime`. -/
def parseVidDate (vid : String) : Option PyDateTime :=
  ((beforeDunder vid.data).map (fun l => String.mk l)).bind strptimeFixed

/-! ### Python's `sorted(set(...))` on strings -/

/-- Insertion step of an insertion sort under `strLe`. -/
def insertStr (x : String) : List String → List String
  | [] => [x]
  | y :: ys => if strLe x y then x :: y :: ys else y :: insertStr x ys

/-- Insertion sort of strings in Python's ascending string order. -/
def sortStrs (l : List String) : List String :=
  l.foldr insertStr []

/-- Removal of duplicates (keeping one representative of each element); the
result has the same members as the input. -/
def dedupLast : List String → List String
  | [] => []
  | x :: xs => if xs.contains x then dedupLast xs else x :: dedupLast xs

/-- Python's `sorted(some_set)` for a set built from the elements of `l`:
the distinct elements of `l` in ascending string order. -/
def pySortedSet (l : List String) : List String :=
  sortStrs (dedupLast l)

/-! ### Release Entry Store access -/

/-- `ReleaseTracker.release_log` (lines 538-545): reads (or returns the
cached) `release-log.json` of the track; a missing file raises
`FileNotFoundError` (an `OSError`). -/
def releaseLogOf (s : TrackerState) (track : String) : Except PyErr (List ReleaseEntry) :=
  match s.releaseLogs.lookup track with
  | none => Except.error PyErr.ioError
  | some l => Except.ok l

/-- In-place update of one key of an insertion-ordered dict, as
`ReleaseTracker.write_release_log` leaves the cache and file (lines
548-551). -/
def dictSet {α : Type} : List (String × α) → String → α → List (String × α)
  | [], k, v => [(k, v)]
  | (k2, v2) :: rest, k, v =>
    if k2 == k then (k2, v) :: rest else (k2, v2) :: dictSet rest k v

/-- Lookup of the layer set recorded for `(track, version_id)`. -/
def layersLookup : List (String × String × List String) → String → String → Option (List String)
  | [], _, _ => none
  | (t, v, ls) :: rest, track, vid =>
    if t == track && v == vid then some ls else layersLookup rest track vid

/-! ### Pruner (`find_prunable`, lines 445-487) -/

/-- One step of building `versions_by_id` (lines 451-454): an
insertion-ordered dict from identifier to the list of identifiers appended
for it (the value list receives `version_id` itself, not the entry). -/
def pushGroup (d : List (String × List String)) (k v : String) : List (String × List String) :=
  if (d.lookup k).isSome then
    d.map (fun kv => if kv.1 == k then (kv.1, kv.2 ++ [v]) else kv)
  else d ++ [(k, [v])]

/-- The `versions_by_id` dict of `_find_prunable_unique`. -/
def versionsById (log : List ReleaseEntry) : List (String × List String) :=
  log.foldl (fun d e =>
    let vid := version_id e.created_at e.version
    pushGroup d vid vid) []

/-- `_find_prunable_unique` (lines 448-459).  The comprehension iterates
`versions_by_id.items()`, so each `versions` is a `(key, list)` 2-tuple;
the slice `versions[:-1]` of that tuple is the 1-tuple `(key,)`, whose only
element is the key.  The comprehension therefore collects every distinct
identifier of the log (the grouped value lists are never consulted), and
the function returns `sorted` of that set. -/
def findPrunableUnique (log : List ReleaseEntry) : List String :=
  pySortedSet ((versionsById log).map Prod.fst)

/-- `_find_prunable_latest` (lines 461-467): `sorted` of the set of
identifiers of every entry except the last (`release_log(track)[:-1]`). -/
def findPrunableLatest (log : List ReleaseEntry) : List String :=
  pySortedSet (log.dropLast.map (fun e => version_id e.created_at e.version))

/-- The dispatch test `track_cfg.prune_policy == "unique"` (line 471): a
Python `Enum` member compares equal only to the member itself, never to a
`str`, so this comparison is `False` for every policy. -/
def pyPolicyEqStr (_p : PrunePolicy) (_s : String) : Bool := false

/-- Policy selection of `find_prunable` (lines 469-474). -/
def policySelected (cfg : ReleaseTrack) (log : List ReleaseEntry) : List String :=
  if pyPolicyEqStr cfg.prune_policy "unique" then findPrunableUnique log
  else findPrunableLatest log

/-- The age filter loop of `find_prunable` (lines 476-485): each candidate
identifier's timestamp prefix is parsed and the candidate is skipped when
`now - v_date < timedelta(days=max_age)`; a parse failure raises. -/
def ageFilter (now : PyDateTime) (maxAge : Int) : List String → Except PyErr (List String)
  | [] => Except.ok []
  | vid :: rest =>
    match parseVidDate vid with
    | none => Except.error PyErr.valueError
    | some d => do
      let tail ← ageFilter now maxAge rest
      if (pySeconds now : Int) - (pySeconds d : Int) < maxAge * 86400 then
        Except.ok tail
      else
        Except.ok (vid :: tail)

/-- `ReleaseTracker.find_prunable` (lines 445-487).  `self.tracks[track]`
raises `KeyError` for an unknown track; the inner helpers read the release
log when called (line 472/474); the age filter runs only when
`prune_max_age > 0`.  `now` is the value `datetime.now()` returns during
the call. -/
def find_prunable (s : TrackerState) (now : PyDateTime) (track : String) :
    Except PyErr (List String) := do
  let cfg ← (match s.tracks.lookup track with
    | none => Except.error PyErr.keyError
    | some c => Except.ok c)
  let log ← releaseLogOf s track
  let prunable := policySelected cfg log
  if cfg.prune_max_age > 0 then ageFilter now cfg.prune_max_age prunable
  else Except.ok prunable

/-- The prunable identifiers `find_prunable` reports for a track, taken as
the empty set when the call raises. -/
def prunableOf (s : TrackerState) (now : PyDateTime) (track : String) : List String :=
  match find_prunable s now track with
  | Except.ok l => l
  | Except.error _ => []

/-! ### Finder (`find`, lines 554-603) -/

/-- `[(i, release) for i, release in enumerate(log) if P release]`,
starting the index count at `n`. -/
def enumFilter {α : Type} (P : α → Bool) : List α → Nat → List (Nat × α)
  | [], _ => []
  | x :: xs, n =>
    if P x then (n, x) :: enumFilter P xs (n + 1)
    else enumFilter P xs (n + 1)

/-- Python's `enumerate` starting at `n`. -/
def pyEnumerate {α : Type} : List α → Nat → List (Nat × α)
  | [], _ => []
  | x :: xs, n => (n, x) :: pyEnumerate xs (n + 1)

/-- The entry predicate `find` filters with (lines 568-597), per selector
precedence: a non-empty `entries` string tests `version_id in entries`
(substring containment); otherwise a supplied regex is matched against the
identifier (the compiled pattern's `match` is taken as an abstract
predicate `String → Bool`; an absent/empty pattern is `none`); otherwise
`version_id(created_at, version).split("__")` is unpacked into exactly two
parts (a different part count raises `ValueError`, e.g. when the version
label itself contains `"__"`), and an entry matches when its raw `version`
ends with the suffix part and, if the timestamp part is non-empty, its
`created_at` equals it. -/
def selectorPred (version created_at : Option String) (matchRe : Option (String → Bool))
    (entries : Option String) : Except PyErr (ReleaseEntry → Bool) :=
  let ent := pyStrip (entries.getD "")
  let v := pyStrip (version.getD "")
  let ca := pyStrip (created_at.getD "")
  if ent ≠ "" then
    Except.ok (fun r => pyIn (version_id r.created_at r.version) ent)
  else
    match matchRe with
    | some f => Except.ok (fun r => f (version_id r.created_at r.version))
    | none =>
      match splitDunderStr (version_id ca v) with
      | [ca2, vs] =>
        Except.ok (fun r => pyEndsWith r.version vs && (ca2 == "" || r.created_at == ca2))
      | _ => Except.error PyErr.valueError

/-- The candidate computation of `find` on an already-loaded log. -/
def findOnLog (log : List ReleaseEntry) (version created_at : Option String)
    (matchRe : Option (String → Bool)) (entries : Option String) :
    Except PyErr (List (Nat × ReleaseEntry)) := do
  let P ← selectorPred version created_at matchRe entries
  Except.ok (enumFilter P log 0)

/-- `ReleaseTracker.find` with `versions_only=False`: reads the track's log
and returns the matching `(index, entry)` pairs in log order. -/
def find (s : TrackerState) (track : String) (version created_at : Option String)
    (matchRe : Option (String → Bool)) (entries : Option String) :
    Except PyErr (List (Nat × ReleaseEntry)) := do
  let log ← releaseLogOf s track
  findOnLog log version created_at matchRe entries

/-- `find` with `versions_only=True` (lines 598-603): each matched entry is
replaced by its derived identifier. -/
def findVidsOnLog (log : List ReleaseEntry) (version created_at : Option String)
    (matchRe : Option (String → Bool)) (entries : Option String) :
    Except PyErr (List (Nat × String)) :=
  (findOnLog log version created_at matchRe entries).map
    (List.map (fun p => (p.1, version_id p.2.created_at p.2.version)))

/-! ### Mutator: `delete` (lines 606-651) -/

/-- The deletion loop (lines 628-636): `release_log.pop(i - popped)` with
`popped` incremented after each pop. -/
def popLoop {α : Type} : List α → List Nat → Nat → List α
  | log, [], _ => log
  | log, i :: rest, popped => popLoop (log.eraseIdx (i - popped)) rest (popped + 1)

/-- Removal of the artifact directories of the deleted versions
(`shutil.rmtree(version_dir)`), restricted to the modelled
`docker-manifests.json` contents. -/
def removeVersionDirs (layers : List (String × String × List String)) (track : String)
    (vids : List String) : List (String × String × List String) :=
  layers.filter (fun kv => !(kv.1 == track && vids.contains kv.2.1))

/-- `ReleaseTracker.delete` (lines 606-651): finds candidates with
`versions_only=True`, pops them positionally, removes their artifact
directories, rewrites the log, and — after the (unchanged-content) rewrite
— raises `RuntimeError("nothing changed")` when nothing was popped but a
commit or push was requested.  A successful `git_commit` is an external
no-op here.  Returns the updated state and the candidate list. -/
def delete (s : TrackerState) (track : String) (version created_at : Option String)
    (matchRe : Option (String → Bool)) (entries : Option String) (commit push : Bool) :
    Except PyErr (TrackerState × List (Nat × String)) := do
  let log ← releaseLogOf s track
  let candidates ← findVidsOnLog log version created_at matchRe entries
  let newLog := popLoop log (candidates.map Prod.fst) 0
  let s' : TrackerState :=
    ⟨s.tracks, dictSet s.releaseLogs track newLog,
      removeVersionDirs s.dockerLayers track (candidates.map Prod.snd)⟩
  if candidates.isEmpty && (commit || push) then Except.error PyErr.nothingChanged
  else Except.ok (s', candidates)

/-! ### Mutator: `add` (lines 363-419) -/

/-- Split on newline characters. -/
def splitOnNl : List Char → List (List Char)
  | [] => [[]]
  | '\n' :: rest => [] :: splitOnNl rest
  | c :: rest =>
    match splitOnNl rest with
    | [] => [[c]]
    | h :: t => (c :: h) :: t

/-- `files.strip().splitlines()` for the newline-joined files argument
(the argument is built by a `"\n".join`, so only `\n` separators occur). -/
def stripLines (files : Option String) : List String :=
  let fs := pyStrip (files.getD "")
  if fs == "" then [] else (splitOnNl fs.data).map (fun l => String.mk l)

/-- Split on `/` characters. -/
def splitOnSlash : List Char → List (List Char)
  | [] => [[]]
  | '/' :: rest => [] :: splitOnSlash rest
  | c :: rest =>
    match splitOnSlash rest with
    | [] => [[c]]
    | h :: t => (c :: h) :: t

/-- `Path(f).name`: the final path component. -/
def baseName (p : String) : String :=
  match ((splitOnSlash p.data).map (fun l => String.mk l)).getLast? with
  | some x => x
  | none => p

/-- `ReleaseTracker.add` (lines 363-419).  With an explicit non-blank
`created_at`, line 375 rebinds `created_at` to the *datetime object*
returned by `strptime` (raising `ValueError` when the string does not
parse); line 380 then calls `version_id(created_at, version)`, whose
`created_at.strip()` raises `AttributeError` on a datetime.  With no (or a
blank) `created_at`, the current UTC time formatted in the fixed format
(`nowStr`) is used, the artifact files are copied under the version
directory (their contents are not modelled), and the new entry is appended
to the log. -/
def add (s : TrackerState) (nowStr : String) (track version : String)
    (created_at : Option String) (files : Option String) (_commit _push : Bool) :
    Except PyErr (TrackerState × ReleaseEntry) := do
  let log ← releaseLogOf s track
  let ca := pyStrip (created_at.getD "")
  if ca ≠ "" then
    match strptimeFixed ca with
    | none => Except.error PyErr.valueError
    | some _ => Except.error PyErr.attributeError
  else
    let vid := version_id nowStr version
    let fs := stripLines files
    let entry : ReleaseEntry :=
      ⟨nowStr, fs.map (fun f => vid ++ "/" ++ baseName (pyStrip f)), version⟩
    Except.ok (⟨s.tracks, dictSet s.releaseLogs track (log ++ [entry]), s.dockerLayers⟩, entry)

/-! ### Track Registry (`load_tracks` / `serialize_tracks` / `initialize`,
lines 306-361) -/

/-- One `{name, prune-policy?, prune-max-age?}` mapping of a tracks
manifest (the `name` key is always present in the inputs modelled). -/
structure TrackCfg where
  name : String
  prunePolicy : Option String
  pruneMaxAge : Option Int
deriving DecidableEq, Repr

/-- The YAML value a tracks configuration string parses to: either the
documented top-level mapping `{tracks: [...]}` or a bare list of track
mappings. -/
inductive YamlTracks where
  | topDict (entries : List TrackCfg)
  | bareList (entries : List TrackCfg)
deriving DecidableEq, Repr

/-- ASCII uppercasing of one character. -/
def pyUpperChar (c : Char) : Char :=
  if 97 ≤ c.toNat && c.toNat ≤ 122 then Char.ofNat (c.toNat - 32) else c

/-- Python's `s.upper()` (ASCII range, as the policy names require). -/
def pyUpper (s : String) : String :=
  String.mk (s.data.map pyUpperChar)

/-- `PrunePolicy[name]`: enum lookup by member name, `KeyError` when the
name is not a member. -/
def parsePolicyName (s : String) : Except PyErr PrunePolicy :=
  if s == "LATEST" then Except.ok PrunePolicy.LATEST
  else if s == "UNIQUE" then Except.ok PrunePolicy.UNIQUE
  else Except.error PyErr.keyError

/-- A Python `set` value. -/
structure PySet (α : Type) where
  elems : List α
deriving DecidableEq, Repr

/-- Insertion into an insertion-ordered dict: an existing key keeps its
position and receives the new value, a new key is appended. -/
def dictInsert {α : Type} (d : List (String × α)) (k : String) (v : α) : List (String × α) :=
  if (d.lookup k).isSome then
    d.map (fun kv => if kv.1 == k then (kv.1, v) else kv)
  else d ++ [(k, v)]

/-- `ReleaseTracker.load_tracks` (lines 306-315).  Iterating the documented
top-level mapping `{tracks: [...]}` yields the key string `"tracks"`, and
`t["name"]` on a `str` raises `TypeError`.  On a bare list the comprehension
builds a dict whose values are the *one-element sets* `{ ReleaseTrack(...) }`
written in the source (a set literal around the named tuple), not the
`ReleaseTrack` values the class annotation `dict[str, ReleaseTrack]`
declares. -/
def load_tracks : YamlTracks → Except PyErr (List (String × PySet ReleaseTrack))
  | YamlTracks.topDict _ => Except.error PyErr.typeError
  | YamlTracks.bareList l =>
    l.foldlM (fun acc t => do
      let pol ← parsePolicyName (pyUpper (t.prunePolicy.getD "unique"))
      pure (dictInsert acc t.name (PySet.mk [⟨t.name, pol, t.pruneMaxAge.getD 0⟩]))) []

/-- Insertion step of a name-ordered insertion sort of tracks. -/
def insertTrack (t : ReleaseTrack) : List ReleaseTrack → List ReleaseTrack
  | [] => [t]
  | u :: us => if strLe t.name u.name then t :: u :: us else u :: insertTrack t us

/-- `sorted(tracks.values(), key=lambda t: t.name)`. -/
def sortTracksByName (l : List ReleaseTrack) : List ReleaseTrack :=
  l.foldr insertTrack []

/-- `ReleaseTracker.serialize_tracks` (lines 317-327): the manifest
structure `{"tracks": [...]}` with one `{name, prune-policy, prune-max-age}`
mapping per track, in name-sorted order. -/
def serialize_tracks (tracks : List (String × ReleaseTrack)) : YamlTracks :=
  YamlTracks.topDict ((sortTracksByName (tracks.map Prod.snd)).map (fun t =>
    ⟨t.name, some t.prune_policy.lowerName, some t.prune_max_age⟩))

/-- The parsed value of `ReleaseTracker.DefaultTracks` (lines 48-56): a
top-level `{tracks: [...]}` mapping with the `nightly` and `stable`
tracks. -/
def defaultTracksYaml : YamlTracks :=
  YamlTracks.topDict
    [⟨"nightly", some "latest", some 0⟩, ⟨"stable", some "unique", some 0⟩]

/-- `ReleaseTracker.initialize` (lines 332-361).  An empty/absent tracks
argument falls back to `DefaultTracks`.  With a top-level `{tracks: [...]}`
value, `load_tracks` raises `TypeError` before any file is touched.  With a
bare-list value, `load_tracks` returns the set-valued dict; the only effect
before the next statement is `storage.mkdir` (which touches no release
log), and `tracks_yml.write_text(self.serialize_tracks(self.tracks))` then
raises: `sorted(values, key=lambda t: t.name)` evaluates `t.name` on a
`set` (`AttributeError`) when the dict is non-empty, and with zero tracks
`write_text` receives the dict `serialize_tracks` returns instead of a
string (`TypeError`).  In every case the call raises before the track-log
loop (lines 349-354), so no `release-log.json` is created or overwritten;
the returned state would only be produced on success. -/
def initTracker (_s : TrackerState) (_project_repo : String) (tracksArg : Option YamlTracks)
    (_commit _push : Bool) : Except PyErr TrackerState := do
  let v := tracksArg.getD defaultTracksYaml
  let tr ← load_tracks v
  if tr.isEmpty then Except.error PyErr.typeError
  else Except.error PyErr.attributeError

/-! ### Layer Reconciler (`find_prunable_docker_layers`, lines 490-535) -/

/-- `_load_layers` (lines 491-498).  When `docker-manifests.json` is absent
the code calls `log.debug("[{}][{}] not a docker release", version_id)`;
the logger formats the message with `fmt.format(*args)`, and two `{}`
placeholders with a single argument raise `IndexError` (cli_helper/log.py,
line 17).  When the file exists, the key set of its `layers` dict is
returned. -/
def loadLayersE (s : TrackerState) (track vid : String) : Except PyErr (List String) :=
  match layersLookup s.dockerLayers track vid with
  | none => Except.error PyErr.indexError
  | some ls => Except.ok ls

/-- Python `set.add`. -/
def setAdd (l : List String) (x : String) : List String :=
  if l.contains x then l else l ++ [x]

/-- Python set union (`|`). -/
def setUnion (l : List String) (xs : List String) : List String :=
  xs.foldl setAdd l

/-- The first loop of `find_prunable_docker_layers` (lines 500-506): the
`prunable_versions` dict, mapping each track with a non-empty
`find_prunable` result to that result. -/
def collectPrunableVersions (s : TrackerState) (now : PyDateTime) :
    Except PyErr (List (String × List String)) :=
  s.tracks.foldlM (fun acc kv => do
    let tv ← find_prunable s now kv.1
    if tv.isEmpty then pure acc else pure (acc ++ [(kv.1, tv)])) []

/-- The body of the second loop (lines 512-524) for one log entry.  The
accumulator is `(prunable_docker_versions, unprunable_layers,
unprunable_docker_versions)`.  The test `version_id not in
prunable_versions` is membership among the *keys* of the
`prunable_versions` dict, i.e. among track names (`trackNames`), not among
the track's prunable identifiers. -/
def scanEntry (s : TrackerState) (trackNames : List String) (tname : String)
    (acc : List String × List String × List String) (e : ReleaseEntry) :
    Except PyErr (List String × List String × List String) := do
  let vid := version_id e.created_at e.version
  let vLayers ← loadLayersE s tname vid
  if vLayers.isEmpty then pure acc
  else if !(trackNames.contains vid) then
    pure (acc.1, setUnion acc.2.1 vLayers, setAdd acc.2.2 vid)
  else
    pure (setAdd acc.1 vid, acc.2.1, acc.2.2)

/-- The second loop of `find_prunable_docker_layers` (lines 512-524) over
all tracks recorded in `prunable_versions`, scanning each such track's full
release log. -/
def scanTracks (s : TrackerState) (pv : List (String × List String)) :
    Except PyErr (List String × List String × List String) :=
  pv.foldlM (fun acc kv => do
    let log ← releaseLogOf s kv.1
    log.foldlM (scanEntry s (pv.map Prod.fst) kv.1) acc) ([], [], [])

/-- The tail of `find_prunable_docker_layers` (lines 526-535).  The
`prunable_layers` comprehension calls `_load_layers(version_id)` with a
single argument; `_load_layers` takes two, so the first iteration raises
`TypeError` — the comprehension only completes (as the empty set) when
`prunable_docker_versions` is empty.  The closing `log.info` calls then
read the loop variable `track`, unbound when the registry has no tracks
(`NameError`). -/
def fpdlFinish (s : TrackerState) (pdv ul udv : List String) :
    Except PyErr (List String × List String × List String × List String) :=
  if pdv.isEmpty then
    (if s.tracks.isEmpty then Except.error PyErr.nameError
     else Except.ok (pdv, [], udv, ul))
  else Except.error PyErr.typeError

/-- `ReleaseTracker.find_prunable_docker_layers` (lines 490-535), returning
`(prunable_docker_versions, prunable_layers, unprunable_docker_versions,
unprunable_layers)`. -/
def find_prunable_docker_layers (s : TrackerState) (now : PyDateTime) :
    Except PyErr (List String × List String × List String × List String) := do
  let pv ← collectPrunableVersions s now
  let acc ← scanTracks s pv
  fpdlFinish s acc.1 acc.2.1 acc.2.2

/-! ### Helper lemmas -/

theorem mem_insertStr (a x : String) (l : List String) :
    a ∈ insertStr x l ↔ a = x ∨ a ∈ l := by
  induction l with
  | nil => simp [insertStr]
  | cons y ys ih =>
    simp only [insertStr]
    split
    · simp
    · simp only [List.mem_cons, ih]
      tauto

theorem mem_sortStrs (a : String) (l : List String) :
    a ∈ sortStrs l ↔ a ∈ l := by
  induction l with
  | nil => simp [sortStrs]
  | cons x xs ih =>
    show a ∈ insertStr x (sortStrs xs) ↔ _
    rw [mem_insertStr]
    simp [ih]

theorem mem_dedupLast (a : String) (l : List String) :
    a ∈ dedupLast l ↔ a ∈ l := by
  induction l with
  | nil => simp [dedupLast]
  | cons x xs ih =>
    simp only [dedupLast]
    split
    · rename_i hc
      rw [ih]
      constructor
      · intro h; exact List.mem_cons_of_mem x h
      · intro h
        rcases List.mem_cons.mp h with h | h
        · subst h; exact List.elem_iff.mp hc
        · exact h
    · simp [ih]

theorem mem_pySortedSet (a : String) (l : List String) :
    a ∈ pySortedSet l ↔ a ∈ l := by
  rw [pySortedSet, mem_sortStrs, mem_dedupLast]

theorem eraseIdx_at_append {α : Type} (pre : List α) (x : α) (xs : List α) :
    (pre ++ x :: xs).eraseIdx pre.length = pre ++ xs := by
  induction pre with
  | nil => rfl
  | cons a pre ih => simp only [List.cons_append, List.length_cons, List.eraseIdx_cons_succ, ih]

theorem popLoop_enumFilter {α : Type} (P : α → Bool) :
    ∀ (l pre : List α) (n popped : Nat), popped ≤ n → pre.length = n - popped →
      popLoop (pre ++ l) ((enumFilter P l n).map Prod.fst) popped
        = pre ++ l.filter (fun a => !(P a)) := by
  intro l
  induction l with
  | nil => intro pre n popped _ _; simp [enumFilter, popLoop]
  | cons x xs ih =>
    intro pre n popped hle hlen
    by_cases hP : P x = true
    · simp only [enumFilter, hP, if_pos, List.map_cons, popLoop]
      have h1 : n - popped = pre.length := hlen.symm
      rw [h1, eraseIdx_at_append]
      have h2 : pre.length = (n + 1) - (popped + 1) := by omega
      rw [ih pre (n + 1) (popped + 1) (by omega) h2]
      simp [List.filter_cons, hP]
    · have hP' : P x = false := by simpa using hP
      simp only [enumFilter, hP', if_neg, Bool.false_eq_true, not_false_iff]
      have h2 : (pre ++ [x]).length = (n + 1) - popped := by
        simp [List.length_append, hlen]; omega
      have h3 := ih (pre ++ [x]) (n + 1) popped (by omega) h2
      rw [List.append_assoc] at h3
      simp only [List.singleton_append] at h3
      rw [h3]
      simp [List.filter_cons, hP']

theorem enumFilter_idx_ge {α : Type} (P : α → Bool) :
    ∀ (l : List α) (n i : Nat), i ∈ (enumFilter P l n).map Prod.fst → n ≤ i := by
  intro l
  induction l with
  | nil => intro n i h; simp [enumFilter] at h
  | cons x xs ih =>
    intro n i h
    simp only [enumFilter] at h
    split at h
    · simp only [List.map_cons, List.mem_cons] at h
      rcases h with h | h
      · omega
      · have := ih (n + 1) i h; omega
    · have := ih (n + 1) i h; omega

theorem pyEnumerate_idx_ge {α : Type} :
    ∀ (l : List α) (n : Nat) (p : Nat × α), p ∈ pyEnumerate l n → n ≤ p.1 := by
  intro l
  induction l with
  | nil => intro n p h; simp [pyEnumerate] at h
  | cons x xs ih =>
    intro n p h
    simp only [pyEnumerate, List.mem_cons] at h
    rcases h with h | h
    · subst h; simp
    · have := ih (n + 1) p h; omega

theorem contains_eq_false_of_ge
    (l : List Nat) (n : Nat) (h : ∀ i ∈ l, n < i) : l.contains n = false := by
  rcases hc : l.contains n with _ | _
  · rfl
  · exact absurd (h n (List.elem_iff.mp hc)) (by omega)

theorem removeIdx_enumFilter {α : Type} (P : α → Bool) :
    ∀ (l : List α) (n : Nat),
      ((pyEnumerate l n).filter
          (fun p => !(((enumFilter P l n).map Prod.fst).contains p.1))).map Prod.snd
        = l.filter (fun a => !(P a)) := by
  intro l
  induction l with
  | nil => intro n; simp [pyEnumerate, enumFilter]
  | cons x xs ih =>
    intro n
    by_cases hP : P x = true
    · simp only [pyEnumerate, enumFilter, hP, if_pos, List.map_cons]
      have hhead : ((n :: (enumFilter P xs (n + 1)).map Prod.fst).contains n) = true := by
        simp [List.contains_cons]
      rw [List.filter_cons]
      simp only [hhead, Bool.not_true, Bool.false_eq_true, if_neg, not_false_iff]
      have hcongr : ∀ p ∈ pyEnumerate xs (n + 1),
          (!((n :: (enumFilter P xs (n + 1)).map Prod.fst).contains p.1))
            = (!(((enumFilter P xs (n + 1)).map Prod.fst).contains p.1)) := by
        intro p hp
        have hge := pyEnumerate_idx_ge xs (n + 1) p hp
        have : (p.1 == n) = false := by
          simp only [beq_eq_false_iff_ne, ne_eq]; omega
        simp [List.contains_cons, this]
      rw [List.filter_congr hcongr, ih (n + 1)]
      simp [List.filter_cons, hP]
    · have hP' : P x = false := by simpa using hP
      simp only [pyEnumerate, enumFilter, hP', Bool.false_eq_true, if_neg, not_false_iff]
      have hhead : (((enumFilter P xs (n + 1)).map Prod.fst).contains n) = false := by
        apply contains_eq_false_of_ge
        intro i hi
        have := enumFilter_idx_ge P xs (n + 1) i hi
        omega
      rw [List.filter_cons]
      simp only [hhead, Bool.not_false, if_pos]
      rw [List.map_cons, ih (n + 1)]
      simp [List.filter_cons, hP']

/-! ### Claim C2 -/

/-- A fixed clock value for calls whose age filter is disabled. -/
def nowC2 : PyDateTime := ⟨2024, 2, 20, 0, 0, 0⟩

/-- Two entries with distinct identifiers. -/
def logC2 : List ReleaseEntry :=
  [⟨"2024-01-01T00:00:00Z", [], "1.0"⟩, ⟨"2024-02-01T00:00:00Z", [], "2.0"⟩]

/-- The same log with the first entry duplicated (same created_at and
version). -/
def logC2dup : List ReleaseEntry :=
  [⟨"2024-01-01T00:00:00Z", [], "1.0"⟩, ⟨"2024-01-01T00:00:00Z", [], "1.0"⟩,
   ⟨"2024-02-01T00:00:00Z", [], "2.0"⟩]

/-- A store with one track of policy `UNIQUE` and no age cutoff, holding
`logC2`. -/
def sC2 : TrackerState :=
  ⟨[("t", ⟨"t", PrunePolicy.UNIQUE, 0⟩)], [("t", logC2)], []⟩

/-- Claim C2: for a UNIQUE track, `find_prunable` is claimed to return the
identifiers of all but the most recent member of each identifier group, so
for two entries with distinct identifiers it should return nothing.  The
code instead dispatches on `track_cfg.prune_policy == "unique"`, which is
`False` for the enum member, so the UNIQUE track is pruned with the LATEST
logic and the earlier entry's identifier is returned (first conjunct).
Moreover `_find_prunable_unique` itself, through the tuple slice
`versions[:-1]` applied to `dict.items()` pairs, would return every
distinct identifier of the log — including the most recent duplicate and
the distinct entry — rather than only the earlier duplicates (second
conjunct, on the log with a duplicated entry). -/
theorem C2_unique_policy_not_applied :
    find_prunable sC2 nowC2 "t" = Except.ok ["2024-01-01T00:00:00Z__1.0"]
      ∧ findPrunableUnique logC2dup
          = ["2024-01-01T00:00:00Z__1.0", "2024-02-01T00:00:00Z__2.0"] :=
  ⟨rfl, rfl⟩

/-! ### Claim C3 -/

/-- A store with one track whose log is empty. -/
def sC3 : TrackerState :=
  ⟨[("t", ⟨"t", PrunePolicy.UNIQUE, 0⟩)], [("t", [])], []⟩

/-- Claim C3: after `add(track, v, created_at=T)` the new entry is claimed
to be findable with identifier `version_id(T, v)`.  The code instead
rebinds `created_at` to the datetime object `strptime` returns and passes
it to `version_id`, whose `created_at.strip()` raises `AttributeError` for
every explicitly supplied timestamp — no entry is ever appended. -/
theorem C3_add_explicit_created_at_raises :
    add sC3 "2024-03-01T00:00:00Z" "t" "1.0" (some "2024-01-01T00:00:00Z") none false false
      = Except.error PyErr.attributeError :=
  rfl

/-! ### Claim C4 -/

/-- Claim C4: re-initialization is claimed to preserve existing release
logs and create empty logs only for tracks lacking one.  The code never
gets that far: for every store, tracks argument and commit/push flags,
`initialize` raises before the track-log loop (a `TypeError` iterating the
`{tracks: [...]}` manifest dict inside `load_tracks`, or an
`AttributeError`/`TypeError` serializing the set-valued registry), so it
creates no empty log at all — and the loop it never reaches would have
truncated every track's log unconditionally (line 354). -/
theorem C4_init_always_raises (s : TrackerState) (pr : String)
    (targ : Option YamlTracks) (c p : Bool) :
    ∃ e, initTracker s pr targ c p = Except.error e := by
  cases h : load_tracks (targ.getD defaultTracksYaml) with
  | error e =>
    exact ⟨e, by simp [initTracker, h, Bind.bind, Except.bind]⟩
  | ok tr =>
    by_cases hemp : tr.isEmpty
    · exact ⟨PyErr.typeError, by simp [initTracker, h, hemp, Bind.bind, Except.bind]⟩
    · exact ⟨PyErr.attributeError, by simp [initTracker, h, hemp, Bind.bind, Except.bind]⟩

/-! ### Claim C5 -/

/-- A registry of two tracks, deliberately listed in non-alphabetical
order. -/
def tracksC5 : List (String × ReleaseTrack) :=
  [("beta", ⟨"beta", PrunePolicy.LATEST, 5⟩), ("alpha", ⟨"alpha", PrunePolicy.UNIQUE, 0⟩)]

/-- Claim C5: `load_tracks` is claimed to be a left inverse of
`serialize_tracks`.  `serialize_tracks` does emit the tracks in name-sorted
order (first conjunct), but `load_tracks` applied to its output raises
`TypeError` — iterating the `{tracks: [...]}` dict yields the key string
`"tracks"`, which is then indexed with `"name"` (second conjunct) — and
even applied to the inner track list it returns a dict whose values are
one-element *sets* wrapping the `ReleaseTrack` tuples, not the original
mapping (third conjunct). -/
theorem C5_roundtrip_fails :
    serialize_tracks tracksC5
        = YamlTracks.topDict
            [⟨"alpha", some "unique", some 0⟩, ⟨"beta", some "latest", some 5⟩]
      ∧ load_tracks (serialize_tracks tracksC5) = Except.error PyErr.typeError
      ∧ load_tracks (YamlTracks.bareList
            [⟨"alpha", some "unique", some 0⟩, ⟨"beta", some "latest", some 5⟩])
          = Except.ok
              [("alpha", PySet.mk [⟨"alpha", PrunePolicy.UNIQUE, 0⟩]),
               ("beta", PySet.mk [⟨"beta", PrunePolicy.LATEST, 5⟩])] :=
  ⟨rfl, rfl, rfl⟩

/-! ### Claim C8 -/

/-- Claim C8: for a LATEST track with no age cutoff and a non-empty log,
`find_prunable` returns exactly the identifiers of every entry except the
most-recently-appended one (the dispatch comparison against `"unique"` is
false for every enum member, so the LATEST branch — which is the intended
one here — runs). -/
theorem C8_latest_keeps_only_newest (s : TrackerState) (now : PyDateTime) (track : String)
    (cfg : ReleaseTrack) (log : List ReleaseEntry)
    (hcfg : s.tracks.lookup track = some cfg)
    (_hpol : cfg.prune_policy = PrunePolicy.LATEST)
    (hage : cfg.prune_max_age = 0)
    (hlog : s.releaseLogs.lookup track = some log)
    (_hne : log ≠ []) :
    ∃ r, find_prunable s now track = Except.ok r
      ∧ ∀ x, x ∈ r ↔ x ∈ log.dropLast.map (fun e => version_id e.created_at e.version) := by
  refine ⟨findPrunableLatest log, ?_, ?_⟩
  · unfold find_prunable
    rw [hcfg]
    simp [releaseLogOf, hlog, hage, policySelected, pyPolicyEqStr, Bind.bind, Except.bind]
  · intro x
    unfold findPrunableLatest
    rw [mem_pySortedSet]

/-- Clock value for the C8 witness (the age filter is disabled there). -/
def nowC8 : PyDateTime := ⟨2024, 2, 20, 0, 0, 0⟩

/-- The LATEST track configuration of the C8 witness. -/
def cfgC8 : ReleaseTrack := ⟨"t", PrunePolicy.LATEST, 0⟩

/-- Three entries appended in order v1, v2, v3. -/
def logC8 : List ReleaseEntry :=
  [⟨"2024-01-01T00:00:00Z", [], "v1"⟩, ⟨"2024-01-02T00:00:00Z", [], "v2"⟩,
   ⟨"2024-01-03T00:00:00Z", [], "v3"⟩]

/-- Store of the C8 witness. -/
def sC8 : TrackerState := ⟨[("t", cfgC8)], [("t", logC8)], []⟩

/-- Witness for C8: on a concrete LATEST track with entries v1, v2, v3 the
hypotheses hold and `find_prunable` returns exactly {v1-id, v2-id},
retaining v3-id only. -/
theorem C8_latest_keeps_only_newest_witness :
    logC8 ≠ []
      ∧ (∃ r, find_prunable sC8 nowC8 "t" = Except.ok r
          ∧ ∀ x, x ∈ r ↔ x ∈ logC8.dropLast.map (fun e => version_id e.created_at e.version))
      ∧ find_prunable sC8 nowC8 "t"
          = Except.ok ["2024-01-01T00:00:00Z__v1", "2024-01-02T00:00:00Z__v2"] :=
  ⟨by decide,
   C8_latest_keeps_only_newest sC8 nowC8 "t" cfgC8 logC8 rfl rfl rfl rfl (by decide),
   rfl⟩

/-! ### Claim C9 -/

/-- The age-filter decision for one candidate identifier: `true` exactly
when the parsed timestamp is at least `maxAge` days before `now` (the
boundary case `now - v_date == max_age` is kept by the code, since only
`now - v_date < max_age` is skipped). -/
def keepB (now : PyDateTime) (maxAge : Int) (vid : String) : Bool :=
  match parseVidDate vid with
  | some d =>
    if (pySeconds now : Int) - (pySeconds d : Int) < maxAge * 86400 then false else true
  | none => false

theorem ageFilter_all_parse (now : PyDateTime) (a : Int) :
    ∀ l : List String, (∀ vid ∈ l, (parseVidDate vid).isSome = true) →
      ageFilter now a l = Except.ok (l.filter (keepB now a)) := by
  intro l
  induction l with
  | nil => intro _; rfl
  | cons vid rest ih =>
    intro h
    have hv := h vid (List.mem_cons_self _ _)
    cases hp : parseVidDate vid with
    | none => rw [hp] at hv; simp at hv
    | some d =>
      have ht := ih (fun x hx => h x (List.mem_cons_of_mem _ hx))
      simp only [ageFilter, hp, ht, Bind.bind, Except.bind]
      by_cases hc : (pySeconds now : Int) - (pySeconds d : Int) < a * 86400
      · simp [List.filter_cons, keepB, hp, hc]
      · simp [List.filter_cons, keepB, hp, hc]

/-- Claim C9: for a track with `prune_max_age = a > 0`, the age filter is
applied after policy selection: `find_prunable` returns the policy-selected
candidates restricted by `keepB`, and a candidate whose parsed `created_at`
is newer than `now - a` days is excluded while one at least `a` days old is
included. -/
theorem C9_age_cutoff_after_policy (s : TrackerState) (now : PyDateTime) (track : String)
    (cfg : ReleaseTrack) (log : List ReleaseEntry) (a : Int)
    (hcfg : s.tracks.lookup track = some cfg)
    (hlog : s.releaseLogs.lookup track = some log)
    (ha : cfg.prune_max_age = a)
    (hpos : 0 < a)
    (hparse : ∀ vid ∈ policySelected cfg log, (parseVidDate vid).isSome = true) :
    find_prunable s now track = Except.ok ((policySelected cfg log).filter (keepB now a))
      ∧ ∀ vid d, parseVidDate vid = some d →
          (vid ∈ (policySelected cfg log).filter (keepB now a)
            ↔ vid ∈ policySelected cfg log
              ∧ ¬((pySeconds now : Int) - (pySeconds d : Int) < a * 86400)) := by
  constructor
  · unfold find_prunable
    rw [hcfg]
    simp only [releaseLogOf, hlog, ha, Bind.bind, Except.bind]
    rw [if_pos hpos]
    exact ageFilter_all_parse now a _ hparse
  · intro vid d hd
    rw [List.mem_filter]
    have hk : keepB now a vid
        = if (pySeconds now : Int) - (pySeconds d : Int) < a * 86400 then false else true := by
      simp [keepB, hd]
    constructor
    · rintro ⟨hmem, hkeep⟩
      refine ⟨hmem, ?_⟩
      intro hlt
      rw [hk, if_pos hlt] at hkeep
      exact absurd hkeep (by simp)
    · rintro ⟨hmem, hge⟩
      refine ⟨hmem, ?_⟩
      rw [hk, if_neg hge]

/-- Clock value for the C9 witness: 2024-02-20. -/
def nowC9 : PyDateTime := ⟨2024, 2, 20, 0, 0, 0⟩

/-- LATEST track with a 30-day prune age. -/
def cfgC9 : ReleaseTrack := ⟨"t", PrunePolicy.LATEST, 30⟩

/-- Entries 40 days old (candidate, old enough), 10 days old (candidate,
too recent) and one day old (the retained latest entry). -/
def logC9 : List ReleaseEntry :=
  [⟨"2024-01-11T00:00:00Z", [], "v1"⟩, ⟨"2024-02-10T00:00:00Z", [], "v2"⟩,
   ⟨"2024-02-19T00:00:00Z", [], "v3"⟩]

/-- Store of the C9 witness. -/
def sC9 : TrackerState := ⟨[("t", cfgC9)], [("t", logC9)], []⟩

/-- Witness for C9: with `prune_max_age = 30`, the 40-day-old candidate is
returned and the 10-day-old candidate is excluded. -/
theorem C9_age_cutoff_after_policy_witness :
    (0 : Int) < 30
      ∧ (find_prunable sC9 nowC9 "t"
            = Except.ok ((policySelected cfgC9 logC9).filter (keepB nowC9 30))
          ∧ ∀ vid d, parseVidDate vid = some d →
              (vid ∈ (policySelected cfgC9 logC9).filter (keepB nowC9 30)
                ↔ vid ∈ policySelected cfgC9 logC9
                  ∧ ¬((pySeconds nowC9 : Int) - (pySeconds d : Int) < 30 * 86400)))
      ∧ find_prunable sC9 nowC9 "t" = Except.ok ["2024-01-11T00:00:00Z__v1"] :=
  ⟨by decide,
   C9_age_cutoff_after_policy sC9 nowC9 "t" cfgC9 logC9 30 rfl rfl rfl (by decide) (by decide),
   rfl⟩

/-! ### Further helper lemmas for the Finder and Mutator claims -/

theorem enumFilter_congr {α : Type} (P Q : α → Bool) (h : ∀ a, P a = Q a) :
    ∀ (l : List α) (n : Nat), enumFilter P l n = enumFilter Q l n := by
  intro l
  induction l with
  | nil => intro n; rfl
  | cons x xs ih => intro n; simp only [enumFilter, h x, ih]

theorem enumFilter_true {α : Type} :
    ∀ (l : List α) (n : Nat), enumFilter (fun _ => true) l n = pyEnumerate l n := by
  intro l
  induction l with
  | nil => intro n; rfl
  | cons x xs ih => intro n; simp only [enumFilter, pyEnumerate, if_pos, ih]

theorem pyEndsWith_empty (s : String) : pyEndsWith s "" = true := by
  show isPrefixChars (String.data "").reverse s.data.reverse = true
  cases s.data.reverse <;> rfl

theorem filterAllFalse {α : Type} (p : α → Bool) :
    ∀ l : List α, (∀ a ∈ l, p a = false) → l.filter p = [] := by
  intro l
  induction l with
  | nil => intro _; rfl
  | cons x xs ih =>
    intro h
    rw [List.filter_cons, h x (List.mem_cons_self _ _)]
    exact ih (fun a ha => h a (List.mem_cons_of_mem _ ha))

theorem lookup_dictSet {α : Type} (d : List (String × α)) (k : String) (v : α) :
    (dictSet d k v).lookup k = some v := by
  induction d with
  | nil => simp [dictSet, List.lookup]
  | cons kv rest ih =>
    rcases kv with ⟨k2, v2⟩
    simp only [dictSet]
    by_cases h : (k2 == k) = true
    · have : k2 = k := by simpa [beq_iff_eq] using h
      subst this
      simp [List.lookup]
    · have hne : ¬(k2 = k) := by simpa [beq_iff_eq] using h
      have hkk : (k == k2) = false := by
        simp only [beq_eq_false_iff_ne, ne_eq]
        exact fun hh => hne hh.symm
      rw [if_neg h]
      simp [List.lookup, hkk, ih]

/-- The resulting value of `delete` once the log read and the candidate
search have succeeded. -/
theorem delete_unfold (s : TrackerState) (track : String) (v ca : Option String)
    (mre : Option (String → Bool)) (ent : Option String) (commit push : Bool)
    (log : List ReleaseEntry) (cs : List (Nat × String))
    (hlog : s.releaseLogs.lookup track = some log)
    (hfind : findVidsOnLog log v ca mre ent = Except.ok cs) :
    delete s track v ca mre ent commit push
      = if cs.isEmpty && (commit || push) then Except.error PyErr.nothingChanged
        else Except.ok
          (⟨s.tracks, dictSet s.releaseLogs track (popLoop log (cs.map Prod.fst) 0),
            removeVersionDirs s.dockerLayers track (cs.map Prod.snd)⟩, cs) := by
  unfold delete
  simp [releaseLogOf, hlog, hfind, Bind.bind, Except.bind]

/-- Inversion of a successful `versions_only` candidate search: the
selector elaborated to some predicate and the candidates are the
enumerate-filter of the log under it. -/
theorem findVids_inv (log : List ReleaseEntry) (v ca : Option String)
    (mre : Option (String → Bool)) (ent : Option String) (cs : List (Nat × String))
    (h : findVidsOnLog log v ca mre ent = Except.ok cs) :
    ∃ P, selectorPred v ca mre ent = Except.ok P
      ∧ cs = (enumFilter P log 0).map
          (fun p => (p.1, version_id p.2.created_at p.2.version)) := by
  unfold findVidsOnLog findOnLog at h
  cases hsel : selectorPred v ca mre ent with
  | error e => rw [hsel] at h; simp [Bind.bind, Except.bind, Except.map] at h
  | ok P =>
    rw [hsel] at h
    simp only [Bind.bind, Except.bind, Except.map] at h
    exact ⟨P, rfl, (Except.ok.inj h).symm⟩

theorem map_fst_of_vids (P : ReleaseEntry → Bool) (log : List ReleaseEntry) :
    ((enumFilter P log 0).map
        (fun p => (p.1, version_id p.2.created_at p.2.version))).map Prod.fst
      = (enumFilter P log 0).map Prod.fst := by
  rw [List.map_map]
  rfl

/-- The original list with the given positions excluded, order preserved. -/
def removeIdxList {α : Type} (l : List α) (idxs : List Nat) : List α :=
  ((pyEnumerate l 0).filter (fun p => !(idxs.contains p.1))).map Prod.snd

/-! ### Claim C6 -/

/-- Claim C6: whenever the candidate search succeeds (and the call does not
end in the zero-match commit error), `delete` returns exactly the matched
candidates and leaves the log equal to the original with the matched
indices excluded, in the original relative order — the `pop(i - popped)`
compensation is correct. -/
theorem C6_delete_removes_exactly_matched (s : TrackerState) (track : String)
    (v ca : Option String) (mre : Option (String → Bool)) (ent : Option String)
    (commit push : Bool) (log : List ReleaseEntry) (cs : List (Nat × String))
    (hlog : s.releaseLogs.lookup track = some log)
    (hfind : findVidsOnLog log v ca mre ent = Except.ok cs)
    (hok : cs ≠ [] ∨ (commit = false ∧ push = false)) :
    ∃ s', delete s track v ca mre ent commit push = Except.ok (s', cs)
      ∧ s'.releaseLogs.lookup track = some (removeIdxList log (cs.map Prod.fst)) := by
  obtain ⟨P, _hsel, hcs⟩ := findVids_inv log v ca mre ent cs hfind
  have hpops : popLoop log (cs.map Prod.fst) 0 = log.filter (fun a => !(P a)) := by
    rw [hcs, map_fst_of_vids]
    have h := popLoop_enumFilter P log [] 0 0 (Nat.le_refl 0) (by simp)
    simpa using h
  have hremove : removeIdxList log (cs.map Prod.fst) = log.filter (fun a => !(P a)) := by
    rw [hcs, map_fst_of_vids]
    unfold removeIdxList
    exact removeIdx_enumFilter P log 0
  rw [delete_unfold s track v ca mre ent commit push log cs hlog hfind]
  have hcond : (cs.isEmpty && (commit || push)) = false := by
    rcases hok with h | ⟨hc, hp⟩
    · have : cs.isEmpty = false := by cases cs with
        | nil => exact absurd rfl h
        | cons a l => rfl
      simp [this]
    · simp [hc, hp]
  rw [hcond]
  simp only [Bool.false_eq_true, if_neg, not_false_iff]
  refine ⟨_, rfl, ?_⟩
  rw [lookup_dictSet, hpops, hremove]

/-- Log of the C6 witness: entries at indices 0-3 with the versions at
indices 1 and 3 ending in `x`. -/
def logC6 : List ReleaseEntry :=
  [⟨"2024-01-01T00:00:00Z", [], "a"⟩, ⟨"2024-01-02T00:00:00Z", [], "bx"⟩,
   ⟨"2024-01-03T00:00:00Z", [], "c"⟩, ⟨"2024-01-04T00:00:00Z", [], "dx"⟩]

/-- Store of the C6 witness. -/
def sC6 : TrackerState := ⟨[("t", ⟨"t", PrunePolicy.UNIQUE, 0⟩)], [("t", logC6)], []⟩

/-- The candidates the version-suffix selector `"x"` matches in `logC6`. -/
def csC6 : List (Nat × String) :=
  [(1, "2024-01-02T00:00:00Z__bx"), (3, "2024-01-04T00:00:00Z__dx")]

/-- Witness for C6: deleting with the suffix selector `x` on a four-entry
log removes exactly indices 1 and 3, leaving entries 0 and 2 in order. -/
theorem C6_delete_removes_exactly_matched_witness :
    findVidsOnLog logC6 (some "x") none none none = Except.ok csC6
      ∧ (∃ s', delete sC6 "t" (some "x") none none none false false = Except.ok (s', csC6)
          ∧ s'.releaseLogs.lookup "t" = some (removeIdxList logC6 (csC6.map Prod.fst)))
      ∧ removeIdxList logC6 (csC6.map Prod.fst)
          = [⟨"2024-01-01T00:00:00Z", [], "a"⟩, ⟨"2024-01-03T00:00:00Z", [], "c"⟩] :=
  ⟨rfl,
   C6_delete_removes_exactly_matched sC6 "t" (some "x") none none none false false
     logC6 csC6 rfl rfl (Or.inr ⟨rfl, rfl⟩),
   rfl⟩

/-! ### Claim C7 -/

/-- Claim C7: once the candidate search has succeeded, `delete` raises the
"nothing changed" error exactly when the selector matched zero entries and
a commit or push was requested; with neither flag, zero matches is a normal
outcome returning the empty candidate list; and with at least one match the
call succeeds (so no such error is raised). -/
theorem C7_nothing_changed_iff (s : TrackerState) (track : String)
    (v ca : Option String) (mre : Option (String → Bool)) (ent : Option String)
    (commit push : Bool) (log : List ReleaseEntry) (cs : List (Nat × String))
    (hlog : s.releaseLogs.lookup track = some log)
    (hfind : findVidsOnLog log v ca mre ent = Except.ok cs) :
    (delete s track v ca mre ent commit push = Except.error PyErr.nothingChanged
        ↔ cs = [] ∧ (commit = true ∨ push = true))
      ∧ (cs = [] → commit = false → push = false →
          ∃ s', delete s track v ca mre ent commit push = Except.ok (s', []))
      ∧ (cs ≠ [] →
          ∃ s', delete s track v ca mre ent commit push = Except.ok (s', cs)) := by
  rw [delete_unfold s track v ca mre ent commit push log cs hlog hfind]
  by_cases hb : (cs.isEmpty && (commit || push)) = true
  · have hb' : cs.isEmpty = true ∧ (commit = true ∨ push = true) := by
      simpa [Bool.and_eq_true, Bool.or_eq_true] using hb
    have hcs : cs = [] := by
      cases cs with
      | nil => rfl
      | cons a l => simp [List.isEmpty] at hb'
    have hcp : commit = true ∨ push = true := hb'.2
    rw [if_pos hb]
    refine ⟨⟨fun _ => ⟨hcs, hcp⟩, fun _ => rfl⟩, ?_, ?_⟩
    · intro _ hc hp
      rw [hc, hp] at hb
      simp at hb
    · intro hne
      exact absurd hcs hne
  · rw [if_neg hb]
    refine ⟨⟨fun h => by simp at h, ?_⟩, ?_, ?_⟩
    · rintro ⟨hcs, hcp⟩
      exfalso
      apply hb
      subst hcs
      rcases hcp with h | h <;> simp [h, List.isEmpty]
    · intro hcs _ _
      subst hcs
      exact ⟨_, rfl⟩
    · intro _
      exact ⟨_, rfl⟩

/-- Log of the C7 witness. -/
def logC7 : List ReleaseEntry := [⟨"2024-01-01T00:00:00Z", [], "1.0"⟩]

/-- Store of the C7 witness. -/
def sC7 : TrackerState := ⟨[("t", ⟨"t", PrunePolicy.UNIQUE, 0⟩)], [("t", logC7)], []⟩

/-- Witness for C7, at a selector (`version = "zzz"`) matching nothing:
with `commit = true`, the error characterization applies (and yields the
error); the other two conjuncts instantiate trivially. -/
theorem C7_nothing_changed_iff_witness :
    findVidsOnLog logC7 (some "zzz") none none none = Except.ok []
      ∧ ((delete sC7 "t" (some "zzz") none none none true false
              = Except.error PyErr.nothingChanged
            ↔ ([] : List (Nat × String)) = [] ∧ (true = true ∨ false = true))
          ∧ (([] : List (Nat × String)) = [] → true = false → false = false →
              ∃ s', delete sC7 "t" (some "zzz") none none none true false
                = Except.ok (s', []))
          ∧ (([] : List (Nat × String)) ≠ [] →
              ∃ s', delete sC7 "t" (some "zzz") none none none true false
                = Except.ok (s', []))) :=
  ⟨rfl, C7_nothing_changed_iff sC7 "t" (some "zzz") none none none true false logC7 [] rfl rfl⟩

/-! ### Claim C10 -/

theorem emptySelectorAllTrue (r : ReleaseEntry) :
    (pyEndsWith r.version "" && (("" : String) == "" || r.created_at == "")) = true := by
  rw [pyEndsWith_empty]
  simp

/-- With no entries set, no regex and empty version/created_at, the
selector splits `"__"` into two empty parts, every version ends with the
empty suffix and the empty timestamp matches anything, so `find` keeps the
whole log. -/
theorem findOnLog_empty_selector (log : List ReleaseEntry) :
    findOnLog log none none none none = Except.ok (pyEnumerate log 0) := by
  have hsel : selectorPred none none none none
      = Except.ok (fun r =>
          pyEndsWith r.version "" && (("" : String) == "" || r.created_at == "")) := rfl
  unfold findOnLog
  rw [hsel]
  simp only [Bind.bind, Except.bind]
  rw [enumFilter_congr _ (fun _ => true) emptySelectorAllTrue, enumFilter_true]

/-- Claim C10: `find` with no entries set, no regex and empty/omitted
version and created_at returns every entry of the log with its original
index, and `delete` with that empty selector (and no commit/push) empties
the log. -/
theorem C10_empty_selector_selects_everything (s : TrackerState) (track : String)
    (log : List ReleaseEntry)
    (hlog : s.releaseLogs.lookup track = some log) :
    find s track none none none none = Except.ok (pyEnumerate log 0)
      ∧ ∃ s', delete s track none none none none false false
            = Except.ok (s', (pyEnumerate log 0).map
                (fun p => (p.1, version_id p.2.created_at p.2.version)))
          ∧ s'.releaseLogs.lookup track = some [] := by
  have hfind : findVidsOnLog log none none none none
      = Except.ok ((pyEnumerate log 0).map
          (fun p => (p.1, version_id p.2.created_at p.2.version))) := by
    unfold findVidsOnLog
    rw [findOnLog_empty_selector]
    rfl
  constructor
  · unfold find
    simp only [releaseLogOf, hlog, Bind.bind, Except.bind]
    exact findOnLog_empty_selector log
  · rw [delete_unfold s track none none none none false false log _ hlog hfind]
    simp only [Bool.or_self, Bool.and_false, Bool.false_eq_true, if_neg, not_false_iff]
    refine ⟨_, rfl, ?_⟩
    rw [lookup_dictSet]
    have henum : pyEnumerate log 0
        = enumFilter (fun r =>
            pyEndsWith r.version "" && (("" : String) == "" || r.created_at == "")) log 0 := by
      rw [enumFilter_congr _ (fun _ => true) emptySelectorAllTrue, enumFilter_true]
    rw [henum, map_fst_of_vids]
    have h := popLoop_enumFilter
      (fun r => pyEndsWith r.version "" && (("" : String) == "" || r.created_at == ""))
      log [] 0 0 (Nat.le_refl 0) (by simp)
    simp only [List.nil_append] at h
    rw [h, filterAllFalse _ log (fun a _ => by simp [pyEndsWith_empty])]

/-- Log of the C10 witness. -/
def logC10 : List ReleaseEntry :=
  [⟨"2024-01-01T00:00:00Z", [], "1.0"⟩, ⟨"2024-01-02T00:00:00Z", [], "2.0"⟩]

/-- Store of the C10 witness. -/
def sC10 : TrackerState := ⟨[("t", ⟨"t", PrunePolicy.UNIQUE, 0⟩)], [("t", logC10)], []⟩

/-- Witness for C10 on a two-entry log: `find` returns both entries with
indices 0 and 1, and the empty-selector `delete` leaves the empty log. -/
theorem C10_empty_selector_selects_everything_witness :
    (find sC10 "t" none none none none = Except.ok (pyEnumerate logC10 0)
        ∧ ∃ s', delete sC10 "t" none none none none false false
              = Except.ok (s', (pyEnumerate logC10 0).map
                  (fun p => (p.1, version_id p.2.created_at p.2.version)))
            ∧ s'.releaseLogs.lookup "t" = some [])
      ∧ pyEnumerate logC10 0
          = [(0, ⟨"2024-01-01T00:00:00Z", [], "1.0"⟩),
             (1, ⟨"2024-01-02T00:00:00Z", [], "2.0"⟩)] :=
  ⟨C10_empty_selector_selects_everything sC10 "t" logC10 rfl, rfl⟩

/-! ### Claim C1 -/

/-- Whenever `find_prunable_docker_layers` returns at all, its prunable
layer set is empty: the partition test `version_id not in prunable_versions`
checks membership among the dict's keys (track names), which no version
identifier equals in a returning run — every docker version lands in the
retained side, and a non-empty `prunable_docker_versions` would instead
abort with the arity `TypeError` of `_load_layers(version_id)`. -/
theorem fpdlFinish_ok (s : TrackerState) (pdv ul udv pv pl uv ul2 : List String)
    (h : fpdlFinish s pdv ul udv = Except.ok (pv, pl, uv, ul2)) : pl = [] := by
  unfold fpdlFinish at h
  by_cases hemp : pdv.isEmpty = true
  · rw [if_pos hemp] at h
    by_cases htr : s.tracks.isEmpty = true
    · rw [if_pos htr] at h
      exact absurd h (by simp)
    · rw [if_neg htr] at h
      have h' := Except.ok.inj h
      have := congrArg (fun q : List String × List String × List String × List String =>
        q.2.1) h'
      simpa using this.symm
  · rw [if_neg hemp] at h
    exact absurd h (by simp)

theorem fpdlOk_prunable_layers_empty (s : TrackerState) (now : PyDateTime)
    (pv pl uv ul : List String)
    (h : find_prunable_docker_layers s now = Except.ok (pv, pl, uv, ul)) : pl = [] := by
  unfold find_prunable_docker_layers at h
  cases h1 : collectPrunableVersions s now with
  | error e => rw [h1] at h; simp [Bind.bind, Except.bind] at h
  | ok pvs =>
    rw [h1] at h
    simp only [Bind.bind, Except.bind] at h
    cases h2 : scanTracks s pvs with
    | error e => rw [h2] at h; simp at h
    | ok acc =>
      rw [h2] at h
      have h3 : fpdlFinish s acc.1 acc.2.1 acc.2.2 = Except.ok (pv, pl, uv, ul) := h
      exact fpdlFinish_ok s acc.1 acc.2.1 acc.2.2 pv pl uv ul h3

/-- Claim C1: if a release entry that no track's prunable set contains
references layer digest `D` in its docker manifest, then `D` is not in the
prunable layer set `find_prunable_docker_layers` returns. -/
theorem C1_retained_layer_never_prunable (s : TrackerState) (now : PyDateTime)
    (track : String) (e : ReleaseEntry) (log : List ReleaseEntry)
    (layers : List String) (D : String) (pv pl uv ul : List String)
    (_hlog : s.releaseLogs.lookup track = some log)
    (_hmem : e ∈ log)
    (_hretained : ∀ kv ∈ s.tracks,
      version_id e.created_at e.version ∉ prunableOf s now kv.1)
    (_hlayers : layersLookup s.dockerLayers track (version_id e.created_at e.version)
      = some layers)
    (_hD : D ∈ layers)
    (hok : find_prunable_docker_layers s now = Except.ok (pv, pl, uv, ul)) :
    D ∉ pl := by
  rw [fpdlOk_prunable_layers_empty s now pv pl uv ul hok]
  simp

/-- Clock value of the C1 witness. -/
def nowC1 : PyDateTime := ⟨2024, 3, 1, 0, 0, 0⟩

/-- The prunable release of the C1 witness (earlier entry of a LATEST
track). -/
def eC1a : ReleaseEntry := ⟨"2024-01-01T00:00:00Z", [], "1.0"⟩

/-- The retained release of the C1 witness (latest entry). -/
def eC1b : ReleaseEntry := ⟨"2024-01-02T00:00:00Z", [], "2.0"⟩

/-- Store of the C1 witness: one LATEST track whose two releases both carry
a docker manifest referencing the shared layer digest `sha256:d`. -/
def sC1 : TrackerState :=
  ⟨[("t", ⟨"t", PrunePolicy.LATEST, 0⟩)],
   [("t", [eC1a, eC1b])],
   [("t", "2024-01-01T00:00:00Z__1.0", ["sha256:d"]),
    ("t", "2024-01-02T00:00:00Z__2.0", ["sha256:d"])]⟩

/-- Witness for C1: the retained release `eC1b` shares layer `sha256:d`
with the prunable release `eC1a`; the reconciler returns, and `sha256:d`
is not in its (empty) prunable layer set. -/
theorem C1_retained_layer_never_prunable_witness :
    (eC1b ∈ [eC1a, eC1b]
        ∧ (∀ kv ∈ sC1.tracks,
            version_id eC1b.created_at eC1b.version ∉ prunableOf sC1 nowC1 kv.1)
        ∧ find_prunable_docker_layers sC1 nowC1
            = Except.ok ([], [],
                ["2024-01-01T00:00:00Z__1.0", "2024-01-02T00:00:00Z__2.0"], ["sha256:d"]))
      ∧ "sha256:d" ∉ ([] : List String) :=
  ⟨⟨by decide, by decide, rfl⟩,
   C1_retained_layer_never_prunable sC1 nowC1 "t" eC1b [eC1a, eC1b] ["sha256:d"] "sha256:d"
     [] [] ["2024-01-01T00:00:00Z__1.0", "2024-01-02T00:00:00Z__2.0"] ["sha256:d"]
     rfl (by decide) (by decide) rfl (by decide) rfl⟩
